import Mathlib

/-
Verification of the bounded TTL configuration cache (package cache of
3scale-authorizer). The Go source is shallowly embedded: time.Time is
modelled as Int (the zero Time is 0, t1.After t2 is t2 < t1), errors as
Option String (none is the nil error), the concurrent map as an
association list with unique keys, and the injectable package clock
now() as an explicit Int argument to the operations that read it.
-/

namespace Cache

/-- client.ProxyConfig, the cached payload; modelled by its ID field,
the only field the repository ever reads. -/
structure ProxyConfig where
  ID : Int
deriving DecidableEq, Repr

/-- RefreshCb: a zero-argument callback returning (client.ProxyConfig, error). -/
def RefreshCb : Type := Unit → ProxyConfig × Option String

/-- Value: the entry stored in the cache (Item, expires, refreshWith). -/
structure Value where
  Item : ProxyConfig
  expires : Int
  refreshWith : Option RefreshCb

/-- The Go zero value of Value: zero ProxyConfig, the zero Time, nil callback. -/
def Value.zero : Value := { Item := { ID := 0 }, expires := 0, refreshWith := none }

/-- Value.SetExpiry overrides the expiry field. -/
def Value.SetExpiry (v : Value) (t : Int) : Value := { v with expires := t }

/-- Value.SetRefreshCallback installs the refresh callback. -/
def Value.SetRefreshCallback (v : Value) (fn : RefreshCb) : Value :=
  { v with refreshWith := some fn }

/-- Value.isExpired: now().After(v.expires), a strict comparison.
The clock sample is the explicit argument. -/
def Value.isExpired (v : Value) (now : Int) : Bool := decide (v.expires < now)

/-- cmap.ConcurrentMap.Get on the association-list model. -/
def cmapGet : List (String × Value) → String → Option Value
  | [], _ => none
  | (k0, v0) :: rest, k => if k0 = k then some v0 else cmapGet rest k

/-- cmap.ConcurrentMap.Set: overwrite in place if the key is present,
append otherwise. -/
def cmapSet : List (String × Value) → String → Value → List (String × Value)
  | [], k, v => [(k, v)]
  | (k0, v0) :: rest, k, v =>
    if k0 = k then (k, v) :: rest else (k0, v0) :: cmapSet rest k v

/-- cmap.ConcurrentMap.Remove: drop the entries carrying the key. -/
def cmapRemove (m : List (String × Value)) (k : String) : List (String × Value) :=
  m.filter (fun kv => decide (kv.1 ≠ k))

/-- ConfigCache: the in-memory cache. The cache field is the concurrent
map, limit the max entry count (negative means unlimited), ttl the
default time to live. refreshWorkerRunning is the int32 guard flag and
stopRefreshWorker the stored stop channel (modelled as a token). -/
structure ConfigCache where
  cache : List (String × Value)
  limit : Int
  ttl : Int
  refreshWorkerRunning : Int
  stopRefreshWorker : Option Nat

/-- NewConfigCache: empty cache with the provided ttl and max entries;
the guard flag and the stop channel start at their zero values. -/
def NewConfigCache (ttl : Int) (maxEntries : Int) : ConfigCache :=
  { cache := [], limit := maxEntries, ttl := ttl,
    refreshWorkerRunning := 0, stopRefreshWorker := none }

/-- ConfigCache.getExpiryTime: now().Add(scp.ttl). -/
def ConfigCache.getExpiryTime (scp : ConfigCache) (now : Int) : Int := now + scp.ttl

/-- The expiry normalisation inlined in ConfigCache.Set: when v.expires
IsZero, replace it by getExpiryTime(). -/
def ConfigCache.withDefaultExpiry (scp : ConfigCache) (now : Int) (v : Value) : Value :=
  if v.expires = 0 then { v with expires := scp.getExpiryTime now } else v

/-- ConfigCache.Set: insert or overwrite under the capacity guard
limit < 0 or Count() < limit; on failure the cache is untouched and the
capacity error is returned. The guard does not look at the key. -/
def ConfigCache.Set (scp : ConfigCache) (now : Int) (key : String) (v : Value) :
    ConfigCache × Option String :=
  if scp.limit < 0 ∨ (scp.cache.length : Int) < scp.limit then
    ({ scp with cache := cmapSet scp.cache key (scp.withDefaultExpiry now v) }, none)
  else
    (scp, some "error - cache is full, cannot add more elements")

/-- ConfigCache.Get: lookup; absent keys give the zero Value and false.
Get takes no clock argument because the Go code never reads now() here. -/
def ConfigCache.Get (scp : ConfigCache) (key : String) : Value × Bool :=
  match cmapGet scp.cache key with
  | none => (Value.zero, false)
  | some v => (v, true)

/-- ConfigCache.Delete: remove the entry when present, no-op otherwise. -/
def ConfigCache.Delete (scp : ConfigCache) (key : String) : ConfigCache :=
  { scp with cache := cmapRemove scp.cache key }

/-- ConfigCache.FlushExpired: collect the keys of the expired entries,
then Delete each of them. -/
def ConfigCache.FlushExpired (scp : ConfigCache) (now : Int) : ConfigCache :=
  let forDeletion := (scp.cache.filter (fun kv => kv.2.isExpired now)).map Prod.fst
  forDeletion.foldl (fun c k => c.Delete k) scp

/-- One iteration step of ConfigCache.Refresh: invoke the callback when
present; an error skips the entry, a success builds the replacement
Value carrying the response, a fresh expiry and the original callback. -/
def ConfigCache.refreshOne (scp : ConfigCache) (now : Int) (v : Value) : Option Value :=
  match v.refreshWith with
  | none => none
  | some cb =>
    match cb () with
    | (resp, none) =>
      some { Item := resp, expires := scp.getExpiryTime now, refreshWith := some cb }
    | (_, some _) => none

/-- The refreshItems map built by the iteration in ConfigCache.Refresh. -/
def ConfigCache.refreshItems (scp : ConfigCache) (now : Int) : List (String × Value) :=
  scp.cache.filterMap (fun kv => (scp.refreshOne now kv.2).map (fun v => (kv.1, v)))

/-- ConfigCache.Refresh: build refreshItems, then Set each collected
pair back, discarding the error Set may return. -/
def ConfigCache.Refresh (scp : ConfigCache) (now : Int) : ConfigCache :=
  (scp.refreshItems now).foldl (fun c kv => (c.Set now kv.1 kv.2).1) scp

/-- ConfigCache.RunRefreshWorker: the CompareAndSwapInt32(0, 1) guard.
On success the stop channel is stored and one background ticker task is
launched (the Bool records that a task was launched); when the flag is
already nonzero the call returns the AlreadyRunning error, launches
nothing and leaves the state untouched. -/
def ConfigCache.RunRefreshWorker (scp : ConfigCache) (stop : Nat) :
    ConfigCache × Option String × Bool :=
  if scp.refreshWorkerRunning = 0 then
    ({ scp with refreshWorkerRunning := 1, stopRefreshWorker := some stop }, none, true)
  else
    (scp, some "worker has already been started", false)

/-- Issuing Set for each pair in turn while recording whether every call
returned the nil error; used to state the capacity claims. -/
def setAll (now : Int) : ConfigCache → List (String × Value) → ConfigCache × Bool
  | scp, [] => (scp, true)
  | scp, kv :: rest =>
    ((setAll now (scp.Set now kv.1 kv.2).1 rest).1,
      (scp.Set now kv.1 kv.2).2.isNone && (setAll now (scp.Set now kv.1 kv.2).1 rest).2)

/-! Lemmas about the association-list model of the concurrent map. -/

theorem cmapGet_cmapSet_self (m : List (String × Value)) (k : String) (v : Value) :
    cmapGet (cmapSet m k v) k = some v := by
  induction m with
  | nil => simp [cmapSet, cmapGet]
  | cons kv rest ih =>
    obtain ⟨k0, v0⟩ := kv
    by_cases h : k0 = k
    · simp [cmapSet, h, cmapGet]
    · simp [cmapSet, h, cmapGet, ih]

theorem cmapGet_cmapSet_of_ne (m : List (String × Value)) (q k : String) (v : Value)
    (h : q ≠ k) : cmapGet (cmapSet m q v) k = cmapGet m k := by
  induction m with
  | nil => simp [cmapSet, cmapGet, h]
  | cons kv rest ih =>
    obtain ⟨k0, v0⟩ := kv
    by_cases h0 : k0 = q
    · subst h0
      simp [cmapSet, cmapGet, h, ih]
    · simp [cmapSet, h0, cmapGet, ih]

theorem cmapSet_map_fst_of_mem (m : List (String × Value)) (k : String) (v : Value)
    (h : k ∈ m.map Prod.fst) :
    (cmapSet m k v).map Prod.fst = m.map Prod.fst := by
  induction m with
  | nil => simp at h
  | cons kv rest ih =>
    obtain ⟨k0, v0⟩ := kv
    by_cases h0 : k0 = k
    · simp [cmapSet, h0]
    · have hr : k ∈ rest.map Prod.fst := by
        simp at h
        rcases h with h | h
        · exact absurd h.symm h0
        · simpa using h
      simp [cmapSet, h0, ih hr]

theorem cmapSet_map_fst_of_not_mem (m : List (String × Value)) (k : String) (v : Value)
    (h : k ∉ m.map Prod.fst) :
    (cmapSet m k v).map Prod.fst = m.map Prod.fst ++ [k] := by
  induction m with
  | nil => simp [cmapSet]
  | cons kv rest ih =>
    obtain ⟨k0, v0⟩ := kv
    simp at h
    have h0 : k0 ≠ k := fun e => h.1 e.symm
    have hr : k ∉ rest.map Prod.fst := by simpa using h.2
    simp [cmapSet, h0, ih hr]

theorem cmapSet_length_of_mem (m : List (String × Value)) (k : String) (v : Value)
    (h : k ∈ m.map Prod.fst) : (cmapSet m k v).length = m.length := by
  have := congrArg List.length (cmapSet_map_fst_of_mem m k v h)
  simpa using this

theorem cmapSet_length_of_not_mem (m : List (String × Value)) (k : String) (v : Value)
    (h : k ∉ m.map Prod.fst) : (cmapSet m k v).length = m.length + 1 := by
  have := congrArg List.length (cmapSet_map_fst_of_not_mem m k v h)
  simpa using this

theorem cmapGet_eq_none_iff (m : List (String × Value)) (k : String) :
    cmapGet m k = none ↔ k ∉ m.map Prod.fst := by
  induction m with
  | nil => simp [cmapGet]
  | cons kv rest ih =>
    obtain ⟨k0, v0⟩ := kv
    by_cases h0 : k0 = k
    · subst h0
      simp [cmapGet]
    · have hred : cmapGet ((k0, v0) :: rest) k = cmapGet rest k := by
        simp [cmapGet, h0]
      rw [hred, List.map_cons, List.mem_cons, not_or, ih]
      constructor
      · intro h
        exact ⟨fun e => h0 e.symm, h⟩
      · intro h
        exact h.2

theorem cmapGet_mem (m : List (String × Value)) (k : String) (v : Value)
    (h : cmapGet m k = some v) : (k, v) ∈ m := by
  induction m with
  | nil => simp [cmapGet] at h
  | cons kv rest ih =>
    obtain ⟨k0, v0⟩ := kv
    by_cases h0 : k0 = k
    · subst h0
      simp [cmapGet] at h
      simp [h]
    · simp [cmapGet, h0] at h
      simp [ih h]

theorem nodup_keys_eq (m : List (String × Value)) (k : String) (a b : Value)
    (hnd : (m.map Prod.fst).Nodup) (ha : (k, a) ∈ m) (hb : (k, b) ∈ m) : a = b := by
  induction m with
  | nil => simp at ha
  | cons kv rest ih =>
    obtain ⟨k0, v0⟩ := kv
    rw [List.map_cons, List.nodup_cons] at hnd
    rcases List.mem_cons.mp ha with ha0 | ha1
    · rcases List.mem_cons.mp hb with hb0 | hb1
      · rw [Prod.mk.injEq] at ha0 hb0
        rw [ha0.2, hb0.2]
      · exfalso
        rw [Prod.mk.injEq] at ha0
        exact hnd.1 (List.mem_map.mpr ⟨(k, b), hb1, ha0.1⟩)
    · rcases List.mem_cons.mp hb with hb0 | hb1
      · exfalso
        rw [Prod.mk.injEq] at hb0
        exact hnd.1 (List.mem_map.mpr ⟨(k, a), ha1, hb0.1⟩)
      · exact ih hnd.2 ha1 hb1

theorem mem_cmapGet (m : List (String × Value)) (k : String) (v : Value)
    (hnd : (m.map Prod.fst).Nodup) (h : (k, v) ∈ m) : cmapGet m k = some v := by
  induction m with
  | nil => simp at h
  | cons kv rest ih =>
    obtain ⟨k0, v0⟩ := kv
    rw [List.map_cons, List.nodup_cons] at hnd
    rcases List.mem_cons.mp h with h0 | h1
    · rw [Prod.mk.injEq] at h0
      simp [cmapGet, h0.1, h0.2]
    · have hk : k0 ≠ k := by
        intro e
        exact hnd.1 (List.mem_map.mpr ⟨(k, v), h1, e.symm⟩)
      simp [cmapGet, hk, ih hnd.2 h1]

/-! Characterisations of Set and of the loops inside Refresh and FlushExpired. -/

theorem Set_of_ok (scp : ConfigCache) (now : Int) (key : String) (v : Value)
    (h : scp.limit < 0 ∨ (scp.cache.length : Int) < scp.limit) :
    scp.Set now key v =
      ({ scp with cache := cmapSet scp.cache key (scp.withDefaultExpiry now v) }, none) := by
  simp [ConfigCache.Set, h]

theorem Set_of_full (scp : ConfigCache) (now : Int) (key : String) (v : Value)
    (h : ¬(scp.limit < 0 ∨ (scp.cache.length : Int) < scp.limit)) :
    scp.Set now key v = (scp, some "error - cache is full, cannot add more elements") := by
  simp only [ConfigCache.Set, if_neg h]

theorem Set_fst_limit (scp : ConfigCache) (now : Int) (key : String) (v : Value) :
    (scp.Set now key v).1.limit = scp.limit := by
  unfold ConfigCache.Set
  split <;> rfl

theorem Set_fst_ttl (scp : ConfigCache) (now : Int) (key : String) (v : Value) :
    (scp.Set now key v).1.ttl = scp.ttl := by
  unfold ConfigCache.Set
  split <;> rfl

theorem withDefaultExpiry_congr (c1 c2 : ConfigCache) (now : Int) (v : Value)
    (h : c1.ttl = c2.ttl) : c1.withDefaultExpiry now v = c2.withDefaultExpiry now v := by
  simp [ConfigCache.withDefaultExpiry, ConfigCache.getExpiryTime, h]

theorem withDefaultExpiry_self (c : ConfigCache) (now : Int) (v : Value)
    (h : v.expires = c.getExpiryTime now) : c.withDefaultExpiry now v = v := by
  unfold ConfigCache.withDefaultExpiry
  rw [← h]
  split <;> rfl

/-- The loop body of Refresh applied along a list of pairs. -/
def foldSet (now : Int) (c : ConfigCache) (items : List (String × Value)) : ConfigCache :=
  items.foldl (fun c kv => (c.Set now kv.1 kv.2).1) c

theorem Refresh_eq_foldSet (scp : ConfigCache) (now : Int) :
    scp.Refresh now = foldSet now scp (scp.refreshItems now) := rfl

theorem foldSet_limit (now : Int) (items : List (String × Value)) :
    ∀ c : ConfigCache, (foldSet now c items).limit = c.limit := by
  induction items with
  | nil => intro c; rfl
  | cons kv rest ih =>
    intro c
    show (foldSet now ((c.Set now kv.1 kv.2).1) rest).limit = c.limit
    rw [ih, Set_fst_limit]

theorem foldSet_ttl (now : Int) (items : List (String × Value)) :
    ∀ c : ConfigCache, (foldSet now c items).ttl = c.ttl := by
  induction items with
  | nil => intro c; rfl
  | cons kv rest ih =>
    intro c
    show (foldSet now ((c.Set now kv.1 kv.2).1) rest).ttl = c.ttl
    rw [ih, Set_fst_ttl]

theorem foldSet_get_of_not_mem (now : Int) (items : List (String × Value)) (k : String)
    (h : k ∉ items.map Prod.fst) :
    ∀ c : ConfigCache, cmapGet (foldSet now c items).cache k = cmapGet c.cache k := by
  induction items with
  | nil => intro c; rfl
  | cons kv rest ih =>
    intro c
    rw [List.map_cons, List.mem_cons, not_or] at h
    show cmapGet (foldSet now ((c.Set now kv.1 kv.2).1) rest).cache k = cmapGet c.cache k
    rw [ih h.2]
    unfold ConfigCache.Set
    split
    · exact cmapGet_cmapSet_of_ne _ _ _ _ (fun e => h.1 e.symm)
    · rfl

theorem foldSet_map_fst (now : Int) (items : List (String × Value)) :
    ∀ c : ConfigCache, (∀ kk ∈ items.map Prod.fst, kk ∈ c.cache.map Prod.fst) →
      (foldSet now c items).cache.map Prod.fst = c.cache.map Prod.fst := by
  induction items with
  | nil => intro c _; rfl
  | cons kv rest ih =>
    intro c hsub
    have hk : kv.1 ∈ c.cache.map Prod.fst := hsub kv.1 (by simp)
    show (foldSet now ((c.Set now kv.1 kv.2).1) rest).cache.map Prod.fst
      = c.cache.map Prod.fst
    have hstep : (c.Set now kv.1 kv.2).1.cache.map Prod.fst = c.cache.map Prod.fst := by
      unfold ConfigCache.Set
      split
      · exact cmapSet_map_fst_of_mem _ _ _ hk
      · rfl
    rw [ih _ (fun kk hkk => hstep ▸ hsub kk (by simp [hkk])), hstep]

theorem foldSet_get_of_mem (now : Int) (items : List (String × Value)) (k : String)
    (v : Value) :
    ∀ c : ConfigCache, (items.map Prod.fst).Nodup → (k, v) ∈ items →
      (∀ kk ∈ items.map Prod.fst, kk ∈ c.cache.map Prod.fst) →
      (c.limit < 0 ∨ (c.cache.length : Int) < c.limit) →
      cmapGet (foldSet now c items).cache k = some (c.withDefaultExpiry now v) := by
  induction items with
  | nil =>
    intro c _ hmem _ _
    simp at hmem
  | cons kv rest ih =>
    intro c hnd hmem hsub hcap
    obtain ⟨k0, v0⟩ := kv
    rw [List.map_cons, List.nodup_cons] at hnd
    have hk0 : k0 ∈ c.cache.map Prod.fst := hsub k0 (by simp)
    have hset : (c.Set now k0 v0).1
        = { c with cache := cmapSet c.cache k0 (c.withDefaultExpiry now v0) } := by
      rw [Set_of_ok c now k0 v0 hcap]
    show cmapGet (foldSet now ((c.Set now k0 v0).1) rest).cache k = _
    rw [hset]
    have hfst : (cmapSet c.cache k0 (c.withDefaultExpiry now v0)).map Prod.fst
        = c.cache.map Prod.fst := cmapSet_map_fst_of_mem _ _ _ hk0
    have hlen : (cmapSet c.cache k0 (c.withDefaultExpiry now v0)).length
        = c.cache.length := cmapSet_length_of_mem _ _ _ hk0
    rcases List.mem_cons.mp hmem with h0 | h1
    · rw [Prod.mk.injEq] at h0
      obtain ⟨hk, hv⟩ := h0
      subst hk
      subst hv
      rw [foldSet_get_of_not_mem now rest k hnd.1]
      exact cmapGet_cmapSet_self _ _ _
    · have hres := ih { c with cache := cmapSet c.cache k0 (c.withDefaultExpiry now v0) }
        hnd.2 h1 (fun kk hkk => hfst ▸ hsub kk (by simp [hkk])) (by simpa [hlen] using hcap)
      rw [hres]
      exact congrArg some (withDefaultExpiry_congr _ c now v rfl)

/-! Lemmas about refreshItems, the map collected by the Refresh iteration. -/

theorem filterMapRefresh_fst_sublist (scp : ConfigCache) (now : Int)
    (m : List (String × Value)) :
    List.Sublist
      ((m.filterMap (fun kv => (scp.refreshOne now kv.2).map (fun v => (kv.1, v)))).map
        Prod.fst)
      (m.map Prod.fst) := by
  induction m with
  | nil => simp
  | cons kv rest ih =>
    rw [List.filterMap_cons]
    cases h : scp.refreshOne now kv.2 with
    | none =>
      rw [List.map_cons]
      exact List.Sublist.cons _ ih
    | some w =>
      rw [Option.map_some', List.map_cons, List.map_cons]
      exact List.Sublist.cons₂ _ ih

theorem refreshItems_fst_sublist (scp : ConfigCache) (now : Int) :
    List.Sublist ((scp.refreshItems now).map Prod.fst) (scp.cache.map Prod.fst) :=
  filterMapRefresh_fst_sublist scp now scp.cache

theorem mem_refreshItems (scp : ConfigCache) (now : Int) (k : String) (w : Value) :
    (k, w) ∈ scp.refreshItems now ↔
      ∃ v, (k, v) ∈ scp.cache ∧ scp.refreshOne now v = some w := by
  unfold ConfigCache.refreshItems
  rw [List.mem_filterMap]
  constructor
  · rintro ⟨⟨k1, v1⟩, hmem, hf⟩
    rw [Option.map_eq_some'] at hf
    obtain ⟨u, hu, he⟩ := hf
    rw [Prod.mk.injEq] at he
    refine ⟨v1, ?_, ?_⟩
    · rw [← he.1]
      exact hmem
    · rw [hu, he.2]
  · rintro ⟨v, hmem, hone⟩
    refine ⟨(k, v), hmem, ?_⟩
    rw [hone]
    rfl

/-! The Delete loop inside FlushExpired. -/

theorem foldDelete_cache (ks : List String) :
    ∀ c : ConfigCache, (ks.foldl (fun c k => c.Delete k) c).cache
      = c.cache.filter (fun kv => decide (kv.1 ∉ ks)) := by
  induction ks with
  | nil =>
    intro c
    rw [List.foldl_nil]
    symm
    rw [List.filter_eq_self]
    intro a _
    simp
  | cons k0 rest ih =>
    intro c
    rw [List.foldl_cons, ih]
    show (cmapRemove c.cache k0).filter _ = _
    unfold cmapRemove
    rw [List.filter_filter]
    apply List.filter_congr
    intro kv _
    by_cases h0 : kv.1 = k0
    · simp [h0]
    · by_cases hr : kv.1 ∈ rest
      · simp [h0, hr]
      · simp [h0, hr]

/-- Claim C5: FlushExpired removes exactly the entries whose expires lies
strictly before the sampled clock and leaves every other entry untouched; an
entry whose expires equals the sample is kept, the comparison being strict.
The clock is passed once, so the whole call compares against a single sample. -/
theorem flushExpired_removes_exactly_expired (scp : ConfigCache) (now : Int)
    (hnd : (scp.cache.map Prod.fst).Nodup) :
    (scp.FlushExpired now).cache
      = scp.cache.filter (fun kv => ! kv.2.isExpired now) := by
  show (((scp.cache.filter (fun kv => kv.2.isExpired now)).map Prod.fst).foldl
      (fun c k => c.Delete k) scp).cache = _
  rw [foldDelete_cache]
  apply List.filter_congr
  intro kv hkv
  by_cases hexp : kv.2.isExpired now = true
  · have hin : kv.1 ∈ (scp.cache.filter (fun kv => kv.2.isExpired now)).map Prod.fst :=
      List.mem_map.mpr ⟨kv, List.mem_filter.mpr ⟨hkv, hexp⟩, rfl⟩
    simp [hin, hexp]
  · have hnotin : kv.1 ∉ (scp.cache.filter (fun kv => kv.2.isExpired now)).map Prod.fst := by
      intro hmem
      obtain ⟨kw, hkw, he⟩ := List.mem_map.mp hmem
      have hkwm := (List.mem_filter.mp hkw).1
      have hkwe := (List.mem_filter.mp hkw).2
      have hkme : (kv.1, kw.2) ∈ scp.cache := by
        rw [← he]
        simpa using hkwm
      have h2 : kw.2 = kv.2 :=
        nodup_keys_eq scp.cache kv.1 kw.2 kv.2 hnd hkme (by simpa using hkv)
      rw [h2] at hkwe
      exact hexp hkwe
    simp [hnotin, hexp]

/-! Concrete data used by the per-claim witnesses and counterexamples. -/

/-- A callback that succeeds with the config of ID 6, as in the repository test. -/
def cbOk : RefreshCb := fun _ => ({ ID := 6 }, none)

/-- A callback that fails, as in the repository test. -/
def cbErr : RefreshCb := fun _ => ({ ID := 0 }, some "http: Handler timeout")

/-- An entry holding the config of ID 5 with the succeeding callback. -/
def v5cb : Value := { Item := { ID := 5 }, expires := 10, refreshWith := some cbOk }

/-- An entry holding the config of ID 5 with the failing callback. -/
def v5err : Value := { Item := { ID := 5 }, expires := 10, refreshWith := some cbErr }

/-- A one-slot cache already holding key a: its entry count equals its limit. -/
def fullCache : ConfigCache :=
  { cache := [("a", { Item := { ID := 5 }, expires := 10, refreshWith := none })],
    limit := 1, ttl := 3, refreshWorkerRunning := 0, stopRefreshWorker := none }

/-- The one-slot full cache whose single entry carries the succeeding callback. -/
def fullCacheCb : ConfigCache :=
  { cache := [("a", v5cb)], limit := 1, ttl := 3,
    refreshWorkerRunning := 0, stopRefreshWorker := none }

/-- An unlimited cache holding the entry with the succeeding callback. -/
def roomCacheCb : ConfigCache :=
  { cache := [("a", v5cb)], limit := -1, ttl := 3,
    refreshWorkerRunning := 0, stopRefreshWorker := none }

/-- Claim C1, counterexample: the store is at its non-negative limit and key a is
already present, yet Set of key a returns the capacity error and stores nothing,
because the capacity guard of Set never looks at the key. -/
theorem set_overwrite_at_capacity_fails_cex :
    (fullCache.Set 0 "a" { Item := { ID := 7 }, expires := 20, refreshWith := none }).2
        = some "error - cache is full, cannot add more elements"
      ∧ (fullCache.Set 0 "a" { Item := { ID := 7 }, expires := 20, refreshWith := none }).1
        = fullCache := by
  constructor <;> rfl

/-- Claim C1 (amended): for every store with a non-negative limit whose entry count
equals the limit, Set fails with the capacity error and leaves the store unchanged
even when the key is already present: the guard compares count against limit on
every call and never looks at the key. -/
theorem set_at_capacity_errors (scp : ConfigCache) (now : Int) (k : String) (v : Value)
    (h0 : 0 ≤ scp.limit) (h1 : (scp.cache.length : Int) = scp.limit)
    (_hpresent : k ∈ scp.cache.map Prod.fst) :
    scp.Set now k v = (scp, some "error - cache is full, cannot add more elements") := by
  apply Set_of_full
  push_neg
  exact ⟨h0, le_of_eq h1.symm⟩

/-- Witness for the amended claim C1 at the concrete full one-slot cache. -/
theorem set_at_capacity_errors_witness :
    (0 ≤ fullCache.limit ∧ (fullCache.cache.length : Int) = fullCache.limit
        ∧ "a" ∈ fullCache.cache.map Prod.fst)
      ∧ fullCache.Set 0 "a" Value.zero
        = (fullCache, some "error - cache is full, cannot add more elements") :=
  ⟨⟨by decide, by decide, by decide⟩,
    set_at_capacity_errors fullCache 0 "a" Value.zero (by decide) (by decide) (by decide)⟩

/-- Claim C2, counterexample: the single entry of a full one-slot store carries a
callback that succeeds with the config of ID 6, yet after Refresh the entry still
holds its old value of ID 5: the Set issued by Refresh fails on capacity and
Refresh discards that error. -/
theorem refresh_success_at_capacity_cex :
    cbOk () = ({ ID := 6 }, none)
      ∧ (fullCacheCb.Refresh 0).Get "a" = (v5cb, true) := by
  constructor <;> rfl

/-- Claim C2 (amended): provided the store is strictly below its capacity bound
(or the limit is negative), an entry whose callback succeeds with v2 is replaced
by Refresh with the new value, a fresh expiry now + ttl and the original
callback, so Get on that key returns the refreshed entry and true. -/
theorem refresh_success_updates_entry (scp : ConfigCache) (now : Int) (k : String)
    (v : Value) (cb : RefreshCb) (v2 : ProxyConfig)
    (hnd : (scp.cache.map Prod.fst).Nodup)
    (hget : cmapGet scp.cache k = some v)
    (hcb : v.refreshWith = some cb)
    (hok : cb () = (v2, none))
    (hcap : scp.limit < 0 ∨ (scp.cache.length : Int) < scp.limit) :
    (scp.Refresh now).Get k
      = ({ Item := v2, expires := scp.getExpiryTime now, refreshWith := some cb }, true) := by
  have hone : scp.refreshOne now v
      = some { Item := v2, expires := scp.getExpiryTime now, refreshWith := some cb } := by
    simp [ConfigCache.refreshOne, hcb, hok]
  have hmemc : (k, v) ∈ scp.cache := cmapGet_mem _ _ _ hget
  have hmemr : (k, ({ Item := v2, expires := scp.getExpiryTime now, refreshWith := some cb } : Value)) ∈ scp.refreshItems now :=
    (mem_refreshItems scp now k _).mpr ⟨v, hmemc, hone⟩
  have hndr : ((scp.refreshItems now).map Prod.fst).Nodup :=
    hnd.sublist (refreshItems_fst_sublist scp now)
  have hsub : ∀ kk ∈ (scp.refreshItems now).map Prod.fst, kk ∈ scp.cache.map Prod.fst :=
    fun kk hkk => (refreshItems_fst_sublist scp now).subset hkk
  have hfold := foldSet_get_of_mem now (scp.refreshItems now) k _ scp hndr hmemr hsub hcap
  rw [Refresh_eq_foldSet]
  unfold ConfigCache.Get
  rw [hfold, withDefaultExpiry_self scp now _ rfl]

/-- Witness for the amended claim C2 at the unlimited one-entry cache. -/
theorem refresh_success_updates_entry_witness :
    ((roomCacheCb.cache.map Prod.fst).Nodup
        ∧ cmapGet roomCacheCb.cache "a" = some v5cb
        ∧ v5cb.refreshWith = some cbOk
        ∧ cbOk () = ({ ID := 6 }, none)
        ∧ (roomCacheCb.limit < 0 ∨ (roomCacheCb.cache.length : Int) < roomCacheCb.limit))
      ∧ (roomCacheCb.Refresh 0).Get "a"
        = ({ Item := { ID := 6 }, expires := 3, refreshWith := some cbOk }, true) :=
  ⟨⟨by decide, rfl, rfl, rfl, by decide⟩,
    refresh_success_updates_entry roomCacheCb 0 "a" v5cb cbOk { ID := 6 }
      (by decide) rfl rfl rfl (by decide)⟩

/-! Lemmas about setAll, used by the capacity claim. -/

theorem setAll_fresh (now : Int) (items : List (String × Value)) :
    ∀ c : ConfigCache,
      (∀ kk ∈ items.map Prod.fst, kk ∉ c.cache.map Prod.fst) →
      (items.map Prod.fst).Nodup →
      (c.limit < 0 ∨ (c.cache.length : Int) + items.length ≤ c.limit) →
      (setAll now c items).2 = true
        ∧ (setAll now c items).1.cache.length = c.cache.length + items.length
        ∧ (setAll now c items).1.limit = c.limit := by
  induction items with
  | nil =>
    intro c _ _ _
    exact ⟨rfl, by simp [setAll], rfl⟩
  | cons kv rest ih =>
    intro c hnew hnd hcap
    obtain ⟨k0, v0⟩ := kv
    rw [List.map_cons, List.nodup_cons] at hnd
    have hk0new : k0 ∉ c.cache.map Prod.fst := hnew k0 (by simp)
    have hcap0 : c.limit < 0 ∨ (c.cache.length : Int) < c.limit := by
      rcases hcap with h | h
      · exact Or.inl h
      · right
        rw [List.length_cons] at h
        push_cast at h
        omega
    have hr1 : (c.Set now k0 v0).1
        = { c with cache := cmapSet c.cache k0 (c.withDefaultExpiry now v0) } := by
      rw [Set_of_ok c now k0 v0 hcap0]
    have hr2 : (c.Set now k0 v0).2 = none := by
      rw [Set_of_ok c now k0 v0 hcap0]
    have hlen1 : (cmapSet c.cache k0 (c.withDefaultExpiry now v0)).length
        = c.cache.length + 1 := cmapSet_length_of_not_mem _ _ _ hk0new
    have hfst1 : (cmapSet c.cache k0 (c.withDefaultExpiry now v0)).map Prod.fst
        = c.cache.map Prod.fst ++ [k0] := cmapSet_map_fst_of_not_mem _ _ _ hk0new
    have ihres := ih { c with cache := cmapSet c.cache k0 (c.withDefaultExpiry now v0) }
      (by
        intro kk hkk
        show kk ∉ (cmapSet c.cache k0 (c.withDefaultExpiry now v0)).map Prod.fst
        rw [hfst1]
        intro hmem
        rcases List.mem_append.mp hmem with hm | hm
        · exact hnew kk (by simp [hkk]) hm
        · exact hnd.1 ((by simpa using hm : kk = k0) ▸ hkk))
      hnd.2
      (by
        rcases hcap with h | h
        · exact Or.inl h
        · right
          show ((cmapSet c.cache k0 (c.withDefaultExpiry now v0)).length : Int)
            + (rest.length : Int) ≤ c.limit
          rw [hlen1]
          rw [List.length_cons] at h
          push_cast at h ⊢
          omega)
    refine ⟨?_, ?_, ?_⟩
    · show ((c.Set now k0 v0).2.isNone && (setAll now (c.Set now k0 v0).1 rest).2) = true
      rw [hr2, hr1, ihres.1]
      rfl
    · show (setAll now (c.Set now k0 v0).1 rest).1.cache.length
        = c.cache.length + ((k0, v0) :: rest).length
      rw [hr1, ihres.2.1]
      show (cmapSet c.cache k0 (c.withDefaultExpiry now v0)).length + rest.length
        = c.cache.length + (rest.length + 1)
      rw [hlen1]
      omega
    · show (setAll now (c.Set now k0 v0).1 rest).1.limit = c.limit
      rw [hr1, ihres.2.2]

theorem setAll_neg (now : Int) (items : List (String × Value)) :
    ∀ c : ConfigCache, c.limit < 0 → (setAll now c items).2 = true := by
  induction items with
  | nil => intro c _; rfl
  | cons kv rest ih =>
    intro c hneg
    have hr2 : (c.Set now kv.1 kv.2).2 = none := by
      rw [Set_of_ok _ _ _ _ (Or.inl hneg)]
    have hl : (c.Set now kv.1 kv.2).1.limit < 0 := by
      rw [Set_fst_limit]
      exact hneg
    show ((c.Set now kv.1 kv.2).2.isNone && (setAll now (c.Set now kv.1 kv.2).1 rest).2)
      = true
    rw [hr2, ih _ hl]
    rfl

/-- Claim C3: inserting L distinct new keys into an empty store with a
non-negative limit L succeeds throughout, and one further distinct new key then
fails with the capacity error and leaves the store unchanged; with a negative
limit setAll never fails on capacity for any list of insertions, repeated keys
included. -/
theorem capacity_limit_spec (ttl now : Int) :
    (∀ L : Int, 0 ≤ L → ∀ items : List (String × Value), (items.map Prod.fst).Nodup →
        (items.length : Int) = L → ∀ k w, k ∉ items.map Prod.fst →
        (setAll now (NewConfigCache ttl L) items).2 = true
          ∧ ((setAll now (NewConfigCache ttl L) items).1.Set now k w).2
              = some "error - cache is full, cannot add more elements"
          ∧ ((setAll now (NewConfigCache ttl L) items).1.Set now k w).1
              = (setAll now (NewConfigCache ttl L) items).1)
      ∧ ∀ L : Int, L < 0 → ∀ items : List (String × Value),
          (setAll now (NewConfigCache ttl L) items).2 = true := by
  constructor
  · intro L hL items hnd hlen k w _hknew
    have hbase := setAll_fresh now items (NewConfigCache ttl L)
      (by intro kk _; simp [NewConfigCache])
      hnd
      (by
        right
        show ((([] : List (String × Value)).length : Int)) + (items.length : Int) ≤ L
        simp only [List.length_nil]
        push_cast
        omega)
    have hful : ¬((setAll now (NewConfigCache ttl L) items).1.limit < 0
        ∨ ((setAll now (NewConfigCache ttl L) items).1.cache.length : Int)
            < (setAll now (NewConfigCache ttl L) items).1.limit) := by
      rw [hbase.2.2, hbase.2.1]
      push_neg
      refine ⟨hL, ?_⟩
      show L ≤ ((([] : List (String × Value)).length + items.length : Nat) : Int)
      simp only [List.length_nil]
      push_cast
      omega
    refine ⟨hbase.1, ?_, ?_⟩
    · rw [Set_of_full _ _ _ _ hful]
    · rw [Set_of_full _ _ _ _ hful]
  · intro L hL items
    exact setAll_neg now items _ hL

/-- Witness for claim C3: limit one, one fresh key inserted, a second fresh key
rejected; and a negative-limit run over a list with a repeated key. -/
theorem capacity_limit_spec_witness :
    ((setAll 0 (NewConfigCache 5 1) [("a", Value.zero)]).2 = true
        ∧ ((setAll 0 (NewConfigCache 5 1) [("a", Value.zero)]).1.Set 0 "b" Value.zero).2
            = some "error - cache is full, cannot add more elements")
      ∧ (setAll 0 (NewConfigCache 5 (-1)) [("x", Value.zero), ("x", Value.zero)]).2
          = true :=
  ⟨⟨((capacity_limit_spec 5 0).1 1 (by decide) [("a", Value.zero)] (by decide) (by decide)
        "b" Value.zero (by decide)).1,
    ((capacity_limit_spec 5 0).1 1 (by decide) [("a", Value.zero)] (by decide) (by decide)
        "b" Value.zero (by decide)).2.1⟩,
    (capacity_limit_spec 5 0).2 (-1) (by decide) [("x", Value.zero), ("x", Value.zero)]⟩

/-- An unlimited cache holding the entry with the failing callback. -/
def errCache : ConfigCache :=
  { cache := [("a", v5err)], limit := -1, ttl := 3,
    refreshWorkerRunning := 0, stopRefreshWorker := none }

/-- Claim C4: an entry whose refresh callback returns an error is left completely
unchanged by Refresh: Get returns the very same Value, so the same item, the
same expiry and the same callback as before the call. -/
theorem refresh_error_leaves_entry (scp : ConfigCache) (now : Int) (k : String)
    (v : Value) (cb : RefreshCb) (r : ProxyConfig) (e : String)
    (hnd : (scp.cache.map Prod.fst).Nodup)
    (hget : cmapGet scp.cache k = some v)
    (hcb : v.refreshWith = some cb)
    (herr : cb () = (r, some e)) :
    (scp.Refresh now).Get k = (v, true) := by
  have hone : scp.refreshOne now v = none := by
    simp [ConfigCache.refreshOne, hcb, herr]
  have hnotin : k ∉ (scp.refreshItems now).map Prod.fst := by
    intro hmem
    obtain ⟨kw, hkw, he⟩ := List.mem_map.mp hmem
    have hkmem : (k, kw.2) ∈ scp.refreshItems now := by
      rw [← he]
      simpa using hkw
    obtain ⟨u, hu, huone⟩ := (mem_refreshItems scp now k kw.2).mp hkmem
    have huv : u = v := nodup_keys_eq scp.cache k u v hnd hu (cmapGet_mem _ _ _ hget)
    rw [huv, hone] at huone
    exact Option.noConfusion huone
  rw [Refresh_eq_foldSet]
  unfold ConfigCache.Get
  rw [foldSet_get_of_not_mem now _ k hnotin scp, hget]

/-- Witness for claim C4: the failing callback of the repository test leaves the
entry of ID 5 in place. -/
theorem refresh_error_leaves_entry_witness :
    (cmapGet errCache.cache "a" = some v5err
        ∧ v5err.refreshWith = some cbErr
        ∧ cbErr () = ({ ID := 0 }, some "http: Handler timeout"))
      ∧ (errCache.Refresh 0).Get "a" = (v5err, true) :=
  ⟨⟨rfl, rfl, rfl⟩,
    refresh_error_leaves_entry errCache 0 "a" v5err cbErr { ID := 0 }
      "http: Handler timeout" (by decide) rfl rfl rfl⟩

/-- A cache with entries expiring at 1, 5 and 9, for the FlushExpired witness. -/
def flushCache : ConfigCache :=
  { cache := [("a", { Item := { ID := 1 }, expires := 1, refreshWith := none }),
              ("b", { Item := { ID := 2 }, expires := 5, refreshWith := none }),
              ("c", { Item := { ID := 3 }, expires := 9, refreshWith := none })],
    limit := -1, ttl := 3, refreshWorkerRunning := 0, stopRefreshWorker := none }

/-- Witness for claim C5 at the sampled clock 5: the entry expiring at 1 goes,
the entries expiring at 5 (equal to the sample, strict comparison) and 9 stay. -/
theorem flushExpired_removes_exactly_expired_witness :
    (flushCache.cache.map Prod.fst).Nodup
      ∧ (flushCache.FlushExpired 5).cache
          = flushCache.cache.filter (fun kv => ! kv.2.isExpired 5)
      ∧ (flushCache.FlushExpired 5).cache
          = [("b", { Item := { ID := 2 }, expires := 5, refreshWith := none }),
             ("c", { Item := { ID := 3 }, expires := 9, refreshWith := none })] :=
  ⟨by decide, flushExpired_removes_exactly_expired flushCache 5 (by decide), by rfl⟩

/-- The Item field survives the expiry normalisation of Set. -/
theorem withDefaultExpiry_Item (c : ConfigCache) (now : Int) (v : Value) :
    (c.withDefaultExpiry now v).Item = v.Item := by
  unfold ConfigCache.withDefaultExpiry
  split <;> rfl

/-- Claim C6: after a successful Set the stored entry is found by Get with its
payload intact, with no condition relating the clock to the stored expiry (Get
reads no clock, so it cannot check expiry); Get on an absent key returns the
zero Value and false. -/
theorem set_then_get (scp : ConfigCache) (now : Int) (k : String) (v : Value)
    (hok : (scp.Set now k v).2 = none) :
    ((scp.Set now k v).1.Get k = (scp.withDefaultExpiry now v, true)
        ∧ ((scp.Set now k v).1.Get k).1.Item = v.Item)
      ∧ ∀ q, cmapGet scp.cache q = none → scp.Get q = (Value.zero, false) := by
  have hcap : scp.limit < 0 ∨ (scp.cache.length : Int) < scp.limit := by
    by_contra hfull
    rw [Set_of_full scp now k v hfull] at hok
    exact Option.noConfusion hok
  constructor
  · have hget : (scp.Set now k v).1.Get k = (scp.withDefaultExpiry now v, true) := by
      rw [Set_of_ok scp now k v hcap]
      unfold ConfigCache.Get
      rw [show ({ scp with cache := cmapSet scp.cache k (scp.withDefaultExpiry now v) }
          : ConfigCache).cache = cmapSet scp.cache k (scp.withDefaultExpiry now v) from rfl]
      rw [cmapGet_cmapSet_self]
    refine ⟨hget, ?_⟩
    rw [hget]
    exact withDefaultExpiry_Item scp now v
  · intro q hq
    unfold ConfigCache.Get
    rw [hq]

/-- Witness for claim C6: a value whose expiry already passed long before the
insertion clock is still found, and an absent key gives the zero Value. -/
theorem set_then_get_witness :
    ((NewConfigCache 5 (-1)).Set 0 "k"
        { Item := { ID := 5 }, expires := -100, refreshWith := none }).2 = none
      ∧ ((NewConfigCache 5 (-1)).Set 0 "k"
          { Item := { ID := 5 }, expires := -100, refreshWith := none }).1.Get "k"
        = ({ Item := { ID := 5 }, expires := -100, refreshWith := none }, true)
      ∧ (NewConfigCache 5 (-1)).Get "absent" = (Value.zero, false) :=
  ⟨rfl,
    (set_then_get (NewConfigCache 5 (-1)) 0 "k"
      { Item := { ID := 5 }, expires := -100, refreshWith := none } (by rfl)).1.1,
    (set_then_get (NewConfigCache 5 (-1)) 0 "k"
      { Item := { ID := 5 }, expires := -100, refreshWith := none } (by rfl)).2 "absent" rfl⟩

/-- Claim C7: starting the worker flips the compare-and-set guard from 0 to 1
and launches one task; a second start finds the flag nonzero, returns the
AlreadyRunning error, launches no task and leaves the state untouched. -/
theorem runRefreshWorker_guard (scp : ConfigCache) (s1 s2 : Nat)
    (h : scp.refreshWorkerRunning = 0) :
    (scp.RunRefreshWorker s1).2.1 = none
      ∧ (scp.RunRefreshWorker s1).2.2 = true
      ∧ (scp.RunRefreshWorker s1).1.refreshWorkerRunning = 1
      ∧ ((scp.RunRefreshWorker s1).1.RunRefreshWorker s2).2.1
          = some "worker has already been started"
      ∧ ((scp.RunRefreshWorker s1).1.RunRefreshWorker s2).2.2 = false
      ∧ ((scp.RunRefreshWorker s1).1.RunRefreshWorker s2).1
          = (scp.RunRefreshWorker s1).1 := by
  unfold ConfigCache.RunRefreshWorker
  rw [if_pos h]
  norm_num

/-- Witness for claim C7 on a fresh default cache. -/
theorem runRefreshWorker_guard_witness :
    (NewConfigCache 5 (-1)).refreshWorkerRunning = 0
      ∧ ((NewConfigCache 5 (-1)).RunRefreshWorker 1).2.1 = none
      ∧ (((NewConfigCache 5 (-1)).RunRefreshWorker 1).1.RunRefreshWorker 2).2.1
          = some "worker has already been started"
      ∧ (((NewConfigCache 5 (-1)).RunRefreshWorker 1).1.RunRefreshWorker 2).1
          = ((NewConfigCache 5 (-1)).RunRefreshWorker 1).1 :=
  ⟨rfl,
    (runRefreshWorker_guard (NewConfigCache 5 (-1)) 1 2 rfl).1,
    (runRefreshWorker_guard (NewConfigCache 5 (-1)) 1 2 rfl).2.2.2.1,
    (runRefreshWorker_guard (NewConfigCache 5 (-1)) 1 2 rfl).2.2.2.2.2⟩

/-- Claim C8: the stored expires field is assigned at insertion time: the
caller-supplied expiry when it is set (nonzero), and now() + ttl otherwise. -/
theorem set_expiry_assignment (scp : ConfigCache) (now : Int) (k : String) (v : Value)
    (hok : (scp.Set now k v).2 = none) :
    ∃ w, cmapGet (scp.Set now k v).1.cache k = some w
      ∧ (v.expires ≠ 0 → w.expires = v.expires)
      ∧ (v.expires = 0 → w.expires = scp.getExpiryTime now) := by
  have hcap : scp.limit < 0 ∨ (scp.cache.length : Int) < scp.limit := by
    by_contra hfull
    rw [Set_of_full scp now k v hfull] at hok
    exact Option.noConfusion hok
  rw [Set_of_ok scp now k v hcap]
  refine ⟨scp.withDefaultExpiry now v, cmapGet_cmapSet_self _ _ _, ?_, ?_⟩
  · intro h
    unfold ConfigCache.withDefaultExpiry
    rw [if_neg h]
  · intro h
    unfold ConfigCache.withDefaultExpiry
    rw [if_pos h]

/-- Witness for claim C8: one Set with the explicit expiry 42 keeps 42, one Set
with the zero expiry stores the clock 100 plus the ttl 5. -/
theorem set_expiry_assignment_witness :
    (((NewConfigCache 5 (-1)).Set 100 "k"
          { Item := { ID := 1 }, expires := 42, refreshWith := none }).2 = none
        ∧ ∃ w, cmapGet ((NewConfigCache 5 (-1)).Set 100 "k"
            { Item := { ID := 1 }, expires := 42, refreshWith := none }).1.cache "k" = some w
          ∧ (({ Item := { ID := 1 }, expires := 42, refreshWith := none } : Value).expires ≠ 0
              → w.expires = ({ Item := { ID := 1 }, expires := 42, refreshWith := none } : Value).expires)
          ∧ (({ Item := { ID := 1 }, expires := 42, refreshWith := none } : Value).expires = 0
              → w.expires = (NewConfigCache 5 (-1)).getExpiryTime 100))
      ∧ ∃ w, cmapGet ((NewConfigCache 5 (-1)).Set 100 "k"
            { Item := { ID := 1 }, expires := 0, refreshWith := none }).1.cache "k" = some w
          ∧ (({ Item := { ID := 1 }, expires := 0, refreshWith := none } : Value).expires ≠ 0
              → w.expires = ({ Item := { ID := 1 }, expires := 0, refreshWith := none } : Value).expires)
          ∧ (({ Item := { ID := 1 }, expires := 0, refreshWith := none } : Value).expires = 0
              → w.expires = (NewConfigCache 5 (-1)).getExpiryTime 100) :=
  ⟨⟨rfl, set_expiry_assignment (NewConfigCache 5 (-1)) 100 "k"
      { Item := { ID := 1 }, expires := 42, refreshWith := none } rfl⟩,
    set_expiry_assignment (NewConfigCache 5 (-1)) 100 "k"
      { Item := { ID := 1 }, expires := 0, refreshWith := none } rfl⟩

/-- Claim C9, counterexample: with the injectable clock at -5 and ttl 5, the
defaulted expiry now() + ttl is the zero time, so the stored entry does carry a
zero expires field, refuting that no entry ever has one. -/
theorem zero_expiry_stored_cex :
    ((NewConfigCache 5 1).Set (-5) "k"
        { Item := { ID := 1 }, expires := 0, refreshWith := none }).2 = none
      ∧ cmapGet ((NewConfigCache 5 1).Set (-5) "k"
          { Item := { ID := 1 }, expires := 0, refreshWith := none }).1.cache "k"
        = some { Item := { ID := 1 }, expires := 0, refreshWith := none } := by
  constructor <;> rfl

/-- Claim C9 (amended): a zero explicit expiry is treated as unset and replaced
by now() + ttl; consequently the entry stored by a successful Set has a nonzero
expires field provided now() + ttl is itself nonzero. -/
theorem set_zero_expiry_defaulted (scp : ConfigCache) (now : Int) (k : String)
    (v : Value) (hok : (scp.Set now k v).2 = none)
    (hnz : scp.getExpiryTime now ≠ 0) :
    ∃ w, cmapGet (scp.Set now k v).1.cache k = some w
      ∧ (v.expires = 0 → w.expires = scp.getExpiryTime now)
      ∧ w.expires ≠ 0 := by
  have hcap : scp.limit < 0 ∨ (scp.cache.length : Int) < scp.limit := by
    by_contra hfull
    rw [Set_of_full scp now k v hfull] at hok
    exact Option.noConfusion hok
  rw [Set_of_ok scp now k v hcap]
  refine ⟨scp.withDefaultExpiry now v, cmapGet_cmapSet_self _ _ _, ?_, ?_⟩
  · intro h
    unfold ConfigCache.withDefaultExpiry
    rw [if_pos h]
  · unfold ConfigCache.withDefaultExpiry
    by_cases h : v.expires = 0
    · rw [if_pos h]
      exact hnz
    · rw [if_neg h]
      exact h

/-- Witness for the amended claim C9 at clock 100 and ttl 5. -/
theorem set_zero_expiry_defaulted_witness :
    (((NewConfigCache 5 (-1)).Set 100 "k"
          { Item := { ID := 1 }, expires := 0, refreshWith := none }).2 = none
        ∧ (NewConfigCache 5 (-1)).getExpiryTime 100 ≠ 0)
      ∧ ∃ w, cmapGet ((NewConfigCache 5 (-1)).Set 100 "k"
            { Item := { ID := 1 }, expires := 0, refreshWith := none }).1.cache "k" = some w
          ∧ (({ Item := { ID := 1 }, expires := 0, refreshWith := none } : Value).expires = 0
              → w.expires = (NewConfigCache 5 (-1)).getExpiryTime 100)
          ∧ w.expires ≠ 0 :=
  ⟨⟨rfl, by decide⟩,
    set_zero_expiry_defaulted (NewConfigCache 5 (-1)) 100 "k"
      { Item := { ID := 1 }, expires := 0, refreshWith := none } rfl (by decide)⟩

/-- Claim C10: Refresh preserves the key list of the store exactly, for every
store state and every behaviour of the callbacks embedded in its entries: no
key is inserted and none removed (a Set that fails on capacity changes nothing,
a Set that succeeds overwrites an existing key in place). -/
theorem refresh_preserves_keys (scp : ConfigCache) (now : Int) :
    (scp.Refresh now).cache.map Prod.fst = scp.cache.map Prod.fst := by
  rw [Refresh_eq_foldSet]
  apply foldSet_map_fst
  intro kk hkk
  exact (refreshItems_fst_sublist scp now).subset hkk

end Cache
